import Mathlib

/-!
Verification of the coffee-order builder (`main.py`).

The program is a fluent builder (`CoffeeOrderBuilder`) producing immutable
value objects (`CoffeeOrder`). We embed it shallowly:

* Python floats become `ℚ` (the price arithmetic involves only small
  decimal literals, so the exact rational value is within any tolerance
  the spec mentions of the float value the program computes).
* Python ints become `ℤ`.
* Dynamic `isinstance` checks are modelled with a small `PyVal` type of
  runtime values; Python's `bool` is a subclass of `int`, which the
  model records in `PyVal.isInstInt`.
* A method that can `raise` becomes a function into `Except PyErr _`;
  `PyErr` distinguishes `TypeError`, `ValueError` and `KeyError`.
* Mutation of the single builder instance is modelled by a step relation
  on a `World` carrying the builder state and the list of orders built
  so far: a raised error leaves the world unchanged, exactly as in the
  source, where every `raise` happens before any field assignment.
-/

namespace Coffee

/-- Runtime values relevant to the builder's dynamic type checks. -/
inductive PyVal where
  | int (n : ℤ)
  | bool (b : Bool)
  | str (s : String)
  | float (q : ℚ)
  | none
  deriving DecidableEq, Repr

/-- Python `isinstance(v, int)`: `bool` is a subclass of `int`. -/
def PyVal.isInstInt : PyVal → Bool
  | .int _ => true
  | .bool _ => true
  | _ => false

/-- Python `isinstance(v, bool)`. -/
def PyVal.isInstBool : PyVal → Bool
  | .bool _ => true
  | _ => false

/-- Numeric value of an int-like Python value (`True == 1`, `False == 0`). -/
def PyVal.toInt : PyVal → ℤ
  | .int n => n
  | .bool b => if b then 1 else 0
  | _ => 0

/-- Boolean value of a bool Python value. -/
def PyVal.toBool : PyVal → Bool
  | .bool b => b
  | _ => false

/-- The exception kinds the program can raise. -/
inductive PyErr where
  | typeError (msg : String)
  | valueError (msg : String)
  | keyError (key : String)
  deriving DecidableEq, Repr

/-- `CoffeeOrder`: the immutable value object produced by the builder. -/
structure CoffeeOrder where
  base : String
  size : String
  milk : String
  syrups : List String
  sugar : ℤ
  iced : Bool
  price : ℚ
  description : String
  deriving DecidableEq, Repr

/-- `CoffeeOrder._gen_description`: builds the parts list and joins with
single spaces, exactly as in the source. -/
def gen_description (size base milk : String) (syrups : List String)
    (iced : Bool) (sugar : ℤ) : String :=
  let parts := [size, base]
  let parts := if milk ≠ "none" then parts ++ ["with " ++ milk ++ " milk"] else parts
  let parts := if ¬ syrups.isEmpty then parts ++ ["+" ++ String.intercalate ", " syrups] else parts
  let parts := if iced then parts ++ ["(iced)"] else parts
  let parts := if sugar > 0 then parts ++ [toString sugar ++ " tsp sugar"] else parts
  String.intercalate " " parts

/-- `CoffeeOrder.__init__`: when no explicit description is supplied, one
is derived by `_gen_description` at construction time. -/
def CoffeeOrder.make (base size milk : String) (syrups : List String)
    (sugar : ℤ) (iced : Bool) (price : ℚ) (description : Option String) : CoffeeOrder :=
  { base, size, milk, syrups, sugar, iced, price,
    description :=
      match description with
      | some d => d
      | Option.none => gen_description size base milk syrups iced sugar }

/-- `CoffeeOrder.__str__`. -/
def CoffeeOrder.toStr (o : CoffeeOrder) : String :=
  if o.description ≠ "" then o.description
  else "Coffee order: " ++ toString o.price ++ " ₽"

/-- `CoffeeOrderBuilder.BASE_PRICES`, as an ordered association table. -/
def BASE_PRICES : List (String × ℚ) :=
  [("espresso", 200), ("americano", 250), ("latte", 300), ("cappuccino", 320)]

/-- `CoffeeOrderBuilder.SIZE_MULTIPLIERS`. -/
def SIZE_MULTIPLIERS : List (String × ℚ) :=
  [("small", 1.0), ("medium", 1.2), ("large", 1.4)]

/-- `CoffeeOrderBuilder.MILK_PRICES`. -/
def MILK_PRICES : List (String × ℚ) :=
  [("none", 0.0), ("whole", 30.0), ("skim", 30.0), ("oat", 60.0), ("soy", 50.0)]

def SYRUP_PRICE : ℚ := 40.0

def ICED_EXTRA : ℚ := 0.2

def MAX_SYRUPS : ℕ := 4

def MAX_SUGAR : ℤ := 5

def MIN_SUGAR : ℤ := 0

/-- `CoffeeOrderBuilder.VALID_BASES` (as the key set of `BASE_PRICES`). -/
def VALID_BASES : List String := BASE_PRICES.map Prod.fst

/-- `CoffeeOrderBuilder.VALID_SIZES`. -/
def VALID_SIZES : List String := SIZE_MULTIPLIERS.map Prod.fst

/-- `CoffeeOrderBuilder.VALID_MILKS`. -/
def VALID_MILKS : List String := MILK_PRICES.map Prod.fst

/-- The mutable state of a `CoffeeOrderBuilder` instance. -/
structure CoffeeOrderBuilder where
  base : Option String
  size : Option String
  milk : String
  syrups : List String
  sugar : ℤ
  iced : Bool
  deriving DecidableEq, Repr

/-- `CoffeeOrderBuilder.__init__`. -/
def initBuilder : CoffeeOrderBuilder :=
  { base := Option.none, size := Option.none, milk := "none",
    syrups := [], sugar := 0, iced := false }

/-- `set_base`. (The source's error message interpolates a Python `set`,
whose textual order is unspecified, so the model keeps only the fixed
head of the message; no claim concerns this message.) -/
def set_base (self : CoffeeOrderBuilder) (base : String) :
    Except PyErr CoffeeOrderBuilder :=
  if base ∉ VALID_BASES then
    .error (.valueError ("Invalid base '" ++ base ++ "'"))
  else
    .ok { self with base := some base }

/-- `set_size`. -/
def set_size (self : CoffeeOrderBuilder) (size : String) :
    Except PyErr CoffeeOrderBuilder :=
  if size ∉ VALID_SIZES then
    .error (.valueError ("Invalid size '" ++ size ++ "'"))
  else
    .ok { self with size := some size }

/-- `set_milk`. -/
def set_milk (self : CoffeeOrderBuilder) (milk : String) :
    Except PyErr CoffeeOrderBuilder :=
  if milk ∉ VALID_MILKS then
    .error (.valueError ("Invalid milk '" ++ milk ++ "'"))
  else
    .ok { self with milk := milk }

/-- `add_syrup`: duplicates are silently ignored; a fifth distinct syrup
raises `ValueError`. -/
def add_syrup (self : CoffeeOrderBuilder) (name : String) :
    Except PyErr CoffeeOrderBuilder :=
  if name ∉ self.syrups then
    if self.syrups.length ≥ MAX_SYRUPS then
      .error (.valueError ("Cannot add more than " ++ toString MAX_SYRUPS ++ " syrups"))
    else
      .ok { self with syrups := self.syrups ++ [name] }
  else
    .ok self

/-- `set_sugar`: `isinstance(teaspoons, int)` then range check `0..5`. -/
def set_sugar (self : CoffeeOrderBuilder) (teaspoons : PyVal) :
    Except PyErr CoffeeOrderBuilder :=
  if teaspoons.isInstInt = false then
    .error (.typeError "Sugar must be an int")
  else if teaspoons.toInt < MIN_SUGAR ∨ teaspoons.toInt > MAX_SUGAR then
    .error (.valueError ("Sugar must be between " ++ toString MIN_SUGAR ++
      " and " ++ toString MAX_SUGAR))
  else
    .ok { self with sugar := teaspoons.toInt }

/-- `set_iced`: `isinstance(iced, bool)`; a genuine bool is required. -/
def set_iced (self : CoffeeOrderBuilder) (iced : PyVal) :
    Except PyErr CoffeeOrderBuilder :=
  if iced.isInstBool = false then
    .error (.typeError "Iced must be a bool")
  else
    .ok { self with iced := iced.toBool }

/-- `clear_extras`. -/
def clear_extras (self : CoffeeOrderBuilder) : CoffeeOrderBuilder :=
  { self with milk := "none", syrups := [], sugar := 0, iced := false }

/-- `build`: validates required fields, computes the price, and returns a
new order with the syrups copied (`tuple(self._syrups)`) and the
description auto-derived. -/
def build (self : CoffeeOrderBuilder) : Except PyErr CoffeeOrder :=
  match self.base with
  | Option.none => .error (.valueError "Base is required")
  | some b =>
    match self.size with
    | Option.none => .error (.valueError "Size is required")
    | some s =>
      match List.lookup b BASE_PRICES with
      | Option.none => .error (.keyError b)
      | some base_price =>
        match List.lookup s SIZE_MULTIPLIERS with
        | Option.none => .error (.keyError s)
        | some size_mul =>
          match List.lookup self.milk MILK_PRICES with
          | Option.none => .error (.keyError self.milk)
          | some milk_price =>
            let syrups_price : ℚ := (self.syrups.length : ℚ) * SYRUP_PRICE
            let iced_price : ℚ := if self.iced then ICED_EXTRA else 0.0
            let total_price := base_price * size_mul + milk_price + syrups_price + iced_price
            .ok (CoffeeOrder.make b s self.milk self.syrups self.sugar self.iced
              total_price Option.none)

/-- The operations a caller can perform on the one builder instance. -/
inductive Op where
  | setBase (s : String)
  | setSize (s : String)
  | setMilk (s : String)
  | addSyrup (s : String)
  | setSugar (v : PyVal)
  | setIced (v : PyVal)
  | clearExtras
  | build
  deriving DecidableEq, Repr

/-- The observable state of a run: the builder instance and every order
built so far (orders are immutable values; `build` copies the syrup list
into the order, so no later mutation of the builder can reach them). -/
structure World where
  builder : CoffeeOrderBuilder
  orders : List CoffeeOrder
  deriving DecidableEq, Repr

/-- Effect of a fallible setter on the world: a raised error propagates
to the caller and leaves the state untouched (every `raise` in the
source occurs before any field assignment). -/
def applySetter (w : World) (r : Except PyErr CoffeeOrderBuilder) : World :=
  match r with
  | .ok b => { w with builder := b }
  | .error _ => w

/-- One caller operation on the world. -/
def step (op : Op) (w : World) : World :=
  match op with
  | .setBase s => applySetter w (set_base w.builder s)
  | .setSize s => applySetter w (set_size w.builder s)
  | .setMilk s => applySetter w (set_milk w.builder s)
  | .addSyrup s => applySetter w (add_syrup w.builder s)
  | .setSugar v => applySetter w (set_sugar w.builder v)
  | .setIced v => applySetter w (set_iced w.builder v)
  | .clearExtras => { w with builder := clear_extras w.builder }
  | .build =>
    match build w.builder with
    | .ok o => { w with orders := w.orders ++ [o] }
    | .error _ => w

/-- Run a sequence of caller operations. -/
def execOps (ops : List Op) (w : World) : World :=
  ops.foldl (fun w op => step op w) w

/-- A fresh run: new builder, no orders built yet. -/
def initWorld : World :=
  { builder := initBuilder, orders := [] }

end Coffee

namespace Coffee

instance {ε α : Type} [DecidableEq ε] [DecidableEq α] : DecidableEq (Except ε α) := fun x y =>
  match x, y with
  | .ok a, .ok b => decidable_of_iff (a = b) (by simp)
  | .error a, .error b => decidable_of_iff (a = b) (by simp)
  | .ok _, .error _ => isFalse (fun h => Except.noConfusion h)
  | .error _, .ok _ => isFalse (fun h => Except.noConfusion h)

/-- The builder state reached in the worked example of the spec:
latte, medium, oat milk, vanilla and caramel syrups, 2 sugars, iced. -/
def exampleBuilder : CoffeeOrderBuilder :=
  { base := some "latte", size := some "medium", milk := "oat",
    syrups := ["vanilla", "caramel"], sugar := 2, iced := true }

/-- A builder already holding four distinct syrups. -/
def fullSyrupBuilder : CoffeeOrderBuilder :=
  { base := some "latte", size := some "medium", milk := "none",
    syrups := ["vanilla", "caramel", "hazelnut", "pumpkin spice"],
    sugar := 0, iced := false }

/-- Successful `build` unfolded: with base and size set and all three
table lookups succeeding, `build` returns the order assembled from the
current builder state. -/
lemma build_ok (b : CoffeeOrderBuilder) (bb ss : String) (bp sm mp : ℚ)
    (hb : b.base = some bb) (hs : b.size = some ss)
    (hbp : List.lookup bb BASE_PRICES = some bp)
    (hsm : List.lookup ss SIZE_MULTIPLIERS = some sm)
    (hmp : List.lookup b.milk MILK_PRICES = some mp) :
    build b = .ok (CoffeeOrder.make bb ss b.milk b.syrups b.sugar b.iced
      (bp * sm + mp + (b.syrups.length : ℚ) * SYRUP_PRICE +
        (if b.iced then ICED_EXTRA else 0.0)) Option.none) := by
  simp only [build, hb, hs, hbp, hsm, hmp]

/-- C1: with a valid base and size set (and the milk, always valid for
reachable builders, priced by the table), `build` succeeds and its price
is `basePrice * sizeMultiplier + milkPrice + 40 * syrupCount + (0.2 if
iced else 0)` within `1e-4` (the rational model computes it exactly);
the tables are the fixed ones of the source. -/
theorem build_price_formula (b : CoffeeOrderBuilder) (bb ss : String) (bp sm mp : ℚ)
    (hb : b.base = some bb) (hs : b.size = some ss)
    (hbp : List.lookup bb BASE_PRICES = some bp)
    (hsm : List.lookup ss SIZE_MULTIPLIERS = some sm)
    (hmp : List.lookup b.milk MILK_PRICES = some mp) :
    (∃ o : CoffeeOrder, build b = .ok o ∧
      |o.price - (bp * sm + mp + 40 * (b.syrups.length : ℚ) +
        (if b.iced then (0.2 : ℚ) else 0))| ≤ 1 / 10000)
    ∧ List.lookup "espresso" BASE_PRICES = some 200
    ∧ List.lookup "americano" BASE_PRICES = some 250
    ∧ List.lookup "latte" BASE_PRICES = some 300
    ∧ List.lookup "cappuccino" BASE_PRICES = some 320
    ∧ List.lookup "small" SIZE_MULTIPLIERS = some 1.0
    ∧ List.lookup "medium" SIZE_MULTIPLIERS = some 1.2
    ∧ List.lookup "large" SIZE_MULTIPLIERS = some 1.4
    ∧ List.lookup "none" MILK_PRICES = some 0.0
    ∧ List.lookup "whole" MILK_PRICES = some 30.0
    ∧ List.lookup "skim" MILK_PRICES = some 30.0
    ∧ List.lookup "oat" MILK_PRICES = some 60.0
    ∧ List.lookup "soy" MILK_PRICES = some 50.0 := by
  refine ⟨⟨_, build_ok b bb ss bp sm mp hb hs hbp hsm hmp, ?_⟩,
    rfl, rfl, rfl, rfl, rfl, rfl, rfl, rfl, rfl, rfl, rfl, rfl⟩
  simp only [CoffeeOrder.make, SYRUP_PRICE, ICED_EXTRA]
  cases b.iced <;> norm_num <;> ring_nf <;> norm_num

/-- C1 witness: the formula at a concrete builder. -/
theorem build_price_formula_witness :
    exampleBuilder.base = some "latte" ∧ exampleBuilder.size = some "medium" ∧
    (∃ o : CoffeeOrder, build exampleBuilder = .ok o ∧
      |o.price - (300 * 1.2 + 60.0 + 40 * (exampleBuilder.syrups.length : ℚ) +
        (if exampleBuilder.iced then (0.2 : ℚ) else 0))| ≤ 1 / 10000) :=
  ⟨rfl, rfl,
    (build_price_formula exampleBuilder "latte" "medium" 300 1.2 60.0
      rfl rfl rfl rfl rfl).1⟩

/-- C2: `build` with base unset raises exactly "Base is required"; with
base set but size unset, exactly "Size is required"; in both cases the
world (builder state and list of built orders) is unchanged. -/
theorem build_missing_required (w : World) :
    (w.builder.base = Option.none →
      build w.builder = .error (.valueError "Base is required") ∧ step Op.build w = w)
    ∧ ∀ bb : String, w.builder.base = some bb → w.builder.size = Option.none →
      build w.builder = .error (.valueError "Size is required") ∧ step Op.build w = w := by
  constructor
  · intro h
    have hb : build w.builder = .error (.valueError "Base is required") := by
      simp only [build, h]
    exact ⟨hb, by simp [step, hb]⟩
  · intro bb h1 h2
    have hb : build w.builder = .error (.valueError "Size is required") := by
      simp only [build, h1, h2]
    exact ⟨hb, by simp [step, hb]⟩

/-- C2 witness: a fresh builder lacks a base; one with only a base set
lacks a size. -/
theorem build_missing_required_witness :
    (build initWorld.builder = .error (.valueError "Base is required")
      ∧ step Op.build initWorld = initWorld)
    ∧ (build ({ initBuilder with base := some "americano" } : CoffeeOrderBuilder)
        = .error (.valueError "Size is required")
      ∧ step Op.build { builder := { initBuilder with base := some "americano" }, orders := [] }
        = { builder := { initBuilder with base := some "americano" }, orders := [] }) :=
  ⟨(build_missing_required initWorld).1 rfl,
   (build_missing_required
      { builder := { initBuilder with base := some "americano" }, orders := [] }).2
     "americano" rfl rfl⟩

/-- C3: `build` never changes the builder state (the builder is reusable,
not consumed), and no operation removes or rewrites an already-built
order: every step only appends to the list of built orders, so every
field of a previously built order — its copied syrups sequence
included — is unchanged by later setter or build calls. -/
theorem build_reusable_orders_immutable :
    (∀ w : World, (step Op.build w).builder = w.builder)
    ∧ ∀ (op : Op) (w : World), ∃ t, (step op w).orders = w.orders ++ t := by
  constructor
  · intro w
    simp only [step]
    cases build w.builder <;> simp
  · intro op w
    cases op with
    | setBase s => exact ⟨[], by cases h : set_base w.builder s <;> simp [step, applySetter, h]⟩
    | setSize s => exact ⟨[], by cases h : set_size w.builder s <;> simp [step, applySetter, h]⟩
    | setMilk s => exact ⟨[], by cases h : set_milk w.builder s <;> simp [step, applySetter, h]⟩
    | addSyrup s => exact ⟨[], by cases h : add_syrup w.builder s <;> simp [step, applySetter, h]⟩
    | setSugar v => exact ⟨[], by cases h : set_sugar w.builder v <;> simp [step, applySetter, h]⟩
    | setIced v => exact ⟨[], by cases h : set_iced w.builder v <;> simp [step, applySetter, h]⟩
    | clearExtras => exact ⟨[], by simp [step]⟩
    | build =>
      cases h : build w.builder with
      | ok o => exact ⟨[o], by simp [step, h]⟩
      | error e => exact ⟨[], by simp [step, h]⟩

end Coffee

namespace Coffee

/-- C4 counterexample: the error raised when adding a fifth distinct
syrup is capitalized "Cannot add more than 4 syrups", not the claimed
lowercase "cannot add more than 4 syrups". -/
theorem add_syrup_message_counterexample :
    "mint" ∉ fullSyrupBuilder.syrups ∧ fullSyrupBuilder.syrups.length = 4 ∧
    add_syrup fullSyrupBuilder "mint" ≠
      Except.error (PyErr.valueError "cannot add more than 4 syrups") := by
  refine ⟨by decide, by decide, by decide⟩

/-- C4 (amended): adding a syrup not already present to a builder whose
syrup sequence holds 4 entries raises `ValueError` with message "Cannot
add more than 4 syrups" (capital C), and the failed call leaves the
builder state — the 4 syrups and every other field — and the built
orders unchanged. -/
theorem add_syrup_at_capacity (b : CoffeeOrderBuilder) (name : String)
    (hmem : name ∉ b.syrups) (hlen : b.syrups.length = 4) :
    add_syrup b name = .error (.valueError "Cannot add more than 4 syrups")
    ∧ ∀ os : List CoffeeOrder,
        step (Op.addSyrup name) { builder := b, orders := os } =
          { builder := b, orders := os } := by
  have h : add_syrup b name = .error (.valueError "Cannot add more than 4 syrups") := by
    simp [add_syrup, hmem, hlen, MAX_SYRUPS]
    decide
  exact ⟨h, fun os => by simp [step, applySetter, h]⟩

/-- C4 witness: the amended statement at the concrete full builder. -/
theorem add_syrup_at_capacity_witness :
    "mint" ∉ fullSyrupBuilder.syrups ∧ fullSyrupBuilder.syrups.length = 4 ∧
    (add_syrup fullSyrupBuilder "mint" =
        .error (.valueError "Cannot add more than 4 syrups")
      ∧ ∀ os : List CoffeeOrder,
          step (Op.addSyrup "mint") { builder := fullSyrupBuilder, orders := os } =
            { builder := fullSyrupBuilder, orders := os }) :=
  ⟨by decide, by decide,
    add_syrup_at_capacity fullSyrupBuilder "mint" (by decide) (by decide)⟩

/-- C5: adding a syrup already present succeeds and returns the builder
unchanged (so the price of any later build is unchanged as well), and
`add_syrup` is idempotent on the world: two consecutive calls with the
same name have the effect of one, whatever the builder state. -/
theorem add_syrup_idempotent :
    (∀ (b : CoffeeOrderBuilder) (name : String),
      name ∈ b.syrups → add_syrup b name = .ok b)
    ∧ ∀ (w : World) (name : String),
        step (Op.addSyrup name) (step (Op.addSyrup name) w) =
          step (Op.addSyrup name) w := by
  constructor
  · intro b name h
    simp [add_syrup, h]
  · intro w name
    by_cases h : name ∈ w.builder.syrups
    · have e : add_syrup w.builder name = .ok w.builder := by simp [add_syrup, h]
      simp [step, applySetter, e]
    · by_cases hl : w.builder.syrups.length ≥ MAX_SYRUPS
      · have e : add_syrup w.builder name =
            .error (.valueError ("Cannot add more than " ++ toString MAX_SYRUPS ++ " syrups")) := by
          simp [add_syrup, h, hl]
        simp [step, applySetter, e]
      · have e : add_syrup w.builder name =
            .ok { w.builder with syrups := w.builder.syrups ++ [name] } := by
          simp [add_syrup, h, hl]
        have h2 : name ∈
            ({ w.builder with syrups := w.builder.syrups ++ [name] } :
              CoffeeOrderBuilder).syrups := by simp
        have e2 : add_syrup
            ({ w.builder with syrups := w.builder.syrups ++ [name] } :
              CoffeeOrderBuilder) name =
            .ok { w.builder with syrups := w.builder.syrups ++ [name] } := by
          simp [add_syrup, h2]
        simp [step, applySetter, e, e2]

/-- C5 witness: re-adding the already present "vanilla" is a no-op. -/
theorem add_syrup_idempotent_witness :
    "vanilla" ∈ exampleBuilder.syrups ∧
    add_syrup exampleBuilder "vanilla" = .ok exampleBuilder :=
  ⟨by decide, add_syrup_idempotent.1 exampleBuilder "vanilla" (by decide)⟩

end Coffee

namespace Coffee

/-- The rendering rule as the specification words it: start with
"{size} {base}"; if milk is not "none", append "with {milk} milk"; if
syrups is non-empty, append "+" followed by the syrups joined by ", " in
insertion order; if iced, append "(iced)"; if sugar > 0, append
"{sugar} tsp sugar"; all present segments joined by single spaces. -/
def descriptionSpec (size base milk : String) (syrups : List String)
    (iced : Bool) (sugar : ℤ) : String :=
  String.intercalate " "
    ([size ++ " " ++ base]
      ++ (if milk ≠ "none" then ["with " ++ milk ++ " milk"] else [])
      ++ (if syrups ≠ [] then ["+" ++ String.intercalate ", " syrups] else [])
      ++ (if iced then ["(iced)"] else [])
      ++ (if sugar > 0 then [toString sugar ++ " tsp sugar"] else []))

/-- Joining with " " starting from two separate leading segments is the
same as starting from their space-joined concatenation. -/
lemma intercalate_head (a b : String) (l : List String) :
    String.intercalate " " (a :: b :: l) =
      String.intercalate " " ((a ++ " " ++ b) :: l) := by
  simp [String.intercalate]
  rfl

/-- C6: the auto-derived description follows the spec's fixed rendering
rule for every combination of fields, and the worked example (medium
latte, oat milk, vanilla and caramel, 2 sugars, iced) renders exactly
as the spec displays it. -/
theorem description_rendering :
    (∀ (size base milk : String) (syrups : List String) (iced : Bool) (sugar : ℤ),
      gen_description size base milk syrups iced sugar =
        descriptionSpec size base milk syrups iced sugar)
    ∧ ∃ o : CoffeeOrder, build exampleBuilder = .ok o ∧
        o.description = "medium latte with oat milk +vanilla, caramel (iced) 2 tsp sugar" := by
  constructor
  · intro size base milk syrups iced sugar
    unfold gen_description descriptionSpec
    by_cases h1 : milk = "none" <;> by_cases h2 : syrups = [] <;>
      cases iced <;> by_cases h4 : sugar > 0 <;>
      simp [h1, h2, h4, intercalate_head]
  · refine ⟨_, rfl, ?_⟩
    simp [CoffeeOrder.make, exampleBuilder]
    decide

/-- C7: `clear_extras` resets milk, syrups, sugar and iced to their
defaults and leaves base and size exactly as they were; a `build`
immediately afterwards reflects only base and size plus those defaults
(in particular its price is just basePrice times sizeMultiplier). -/
theorem clear_extras_resets (b : CoffeeOrderBuilder) :
    ((clear_extras b).base = b.base ∧ (clear_extras b).size = b.size
      ∧ (clear_extras b).milk = "none" ∧ (clear_extras b).syrups = []
      ∧ (clear_extras b).sugar = 0 ∧ (clear_extras b).iced = false)
    ∧ ∀ (bb ss : String) (bp sm : ℚ), b.base = some bb → b.size = some ss →
        List.lookup bb BASE_PRICES = some bp →
        List.lookup ss SIZE_MULTIPLIERS = some sm →
        build (clear_extras b) =
          .ok (CoffeeOrder.make bb ss "none" [] 0 false (bp * sm) Option.none) := by
  refine ⟨⟨rfl, rfl, rfl, rfl, rfl, rfl⟩, ?_⟩
  intro bb ss bp sm hb hs hbp hsm
  have h := build_ok (clear_extras b) bb ss bp sm 0.0
    (by simpa [clear_extras] using hb) (by simpa [clear_extras] using hs) hbp hsm rfl
  rw [h]
  norm_num [clear_extras, SYRUP_PRICE, ICED_EXTRA]

end Coffee

namespace Coffee

/-- C7 witness: clearing extras on the worked-example builder and
rebuilding yields a plain medium latte at 300 * 1.2. -/
theorem clear_extras_resets_witness :
    (clear_extras exampleBuilder).milk = "none" ∧
    build (clear_extras exampleBuilder) =
      .ok (CoffeeOrder.make "latte" "medium" "none" [] 0 false (300 * 1.2) Option.none) :=
  ⟨(clear_extras_resets exampleBuilder).1.2.2.1,
   (clear_extras_resets exampleBuilder).2 "latte" "medium" 300 1.2 rfl rfl rfl rfl⟩

/-- C8: `set_sugar` raises `TypeError` on any value failing Python's
`isinstance(·, int)` test, raises `ValueError` on an integer outside
`0..5`, and stores any integer in `0..5`; in both failure cases the
world is unchanged. -/
theorem set_sugar_validation (b : CoffeeOrderBuilder) :
    (∀ v : PyVal, v.isInstInt = false →
      set_sugar b v = .error (.typeError "Sugar must be an int")
      ∧ ∀ os : List CoffeeOrder,
          step (Op.setSugar v) { builder := b, orders := os } =
            { builder := b, orders := os })
    ∧ (∀ n : ℤ, n < 0 ∨ n > 5 →
      set_sugar b (.int n) = .error (.valueError "Sugar must be between 0 and 5")
      ∧ ∀ os : List CoffeeOrder,
          step (Op.setSugar (.int n)) { builder := b, orders := os } =
            { builder := b, orders := os })
    ∧ ∀ n : ℤ, 0 ≤ n → n ≤ 5 →
        set_sugar b (.int n) = .ok { b with sugar := n } := by
  refine ⟨?_, ?_, ?_⟩
  · intro v hv
    have e : set_sugar b v = .error (.typeError "Sugar must be an int") := by
      simp [set_sugar, hv]
    exact ⟨e, fun os => by simp [step, applySetter, e]⟩
  · intro n hn
    have e : set_sugar b (.int n) =
        .error (.valueError "Sugar must be between 0 and 5") := by
      rcases hn with hn | hn <;>
        · simp [set_sugar, PyVal.isInstInt, PyVal.toInt, MIN_SUGAR, MAX_SUGAR, hn]
          decide
    exact ⟨e, fun os => by simp [step, applySetter, e]⟩
  · intro n h0 h5
    have hc : ¬ (n < MIN_SUGAR ∨ n > MAX_SUGAR) := by
      simp only [MIN_SUGAR, MAX_SUGAR]
      omega
    simp [set_sugar, PyVal.isInstInt, PyVal.toInt, hc]

/-- C8 witness: a string is rejected as a type error, 6 as a range
error, and 3 is stored. -/
theorem set_sugar_validation_witness :
    (set_sugar initBuilder (.str "two") = .error (.typeError "Sugar must be an int")
      ∧ ∀ os : List CoffeeOrder,
          step (Op.setSugar (.str "two")) { builder := initBuilder, orders := os } =
            { builder := initBuilder, orders := os })
    ∧ (set_sugar initBuilder (.int 6) =
        .error (.valueError "Sugar must be between 0 and 5")
      ∧ ∀ os : List CoffeeOrder,
          step (Op.setSugar (.int 6)) { builder := initBuilder, orders := os } =
            { builder := initBuilder, orders := os })
    ∧ set_sugar initBuilder (.int 3) = .ok { initBuilder with sugar := 3 } :=
  ⟨(set_sugar_validation initBuilder).1 (.str "two") rfl,
   (set_sugar_validation initBuilder).2.1 6 (by decide),
   (set_sugar_validation initBuilder).2.2 3 (by decide) (by decide)⟩

/-- C10: Python's `bool` passes the `isinstance(·, int)` test, so
`set_sugar` accepts `True` (storing the value that equals 1) and
`False` (storing 0), while `set_iced` rejects every non-boolean —
including the integers 0 and 1 — with `TypeError`. -/
theorem set_sugar_bool_vs_set_iced (b : CoffeeOrderBuilder) :
    set_sugar b (.bool true) = .ok { b with sugar := 1 }
    ∧ set_sugar b (.bool false) = .ok { b with sugar := 0 }
    ∧ (∀ v : PyVal, v.isInstBool = false →
        set_iced b v = .error (.typeError "Iced must be a bool"))
    ∧ set_iced b (.int 0) = .error (.typeError "Iced must be a bool")
    ∧ set_iced b (.int 1) = .error (.typeError "Iced must be a bool") := by
  refine ⟨rfl, rfl, ?_, rfl, rfl⟩
  intro v hv
  simp [set_iced, hv]

/-- C10 witness: at the fresh builder, with the string "yes" as the
non-boolean fed to `set_iced`. -/
theorem set_sugar_bool_vs_set_iced_witness :
    set_sugar initBuilder (.bool true) = .ok { initBuilder with sugar := 1 }
    ∧ set_iced initBuilder (.str "yes") = .error (.typeError "Iced must be a bool") :=
  ⟨(set_sugar_bool_vs_set_iced initBuilder).1,
   (set_sugar_bool_vs_set_iced initBuilder).2.2.1 (.str "yes") rfl⟩

end Coffee

namespace Coffee

/-- The builder-state invariant the claims name: distinct syrups, at
most 4 of them, sugar within 0..5. -/
def builderInv (b : CoffeeOrderBuilder) : Prop :=
  b.syrups.Nodup ∧ b.syrups.length ≤ 4 ∧ 0 ≤ b.sugar ∧ b.sugar ≤ 5

/-- The same bounds on a built order. -/
def orderInv (o : CoffeeOrder) : Prop :=
  o.syrups.Nodup ∧ o.syrups.length ≤ 4 ∧ 0 ≤ o.sugar ∧ o.sugar ≤ 5

/-- Invariant of a whole run: the builder satisfies its invariant and so
does every order built so far. -/
def worldInv (w : World) : Prop :=
  builderInv w.builder ∧ ∀ o ∈ w.orders, orderInv o

/-- A successful `build` copies the builder's syrups and sugar into the
order unchanged. -/
lemma build_ok_fields (b : CoffeeOrderBuilder) (o : CoffeeOrder)
    (h : build b = .ok o) : o.syrups = b.syrups ∧ o.sugar = b.sugar := by
  unfold build at h
  repeat' split at h
  all_goals simp at h
  all_goals subst h
  all_goals exact ⟨rfl, rfl⟩

/-- `set_base` never touches syrups or sugar. -/
lemma set_base_ok (b : CoffeeOrderBuilder) (s : String) (b' : CoffeeOrderBuilder)
    (h : set_base b s = .ok b') : b'.syrups = b.syrups ∧ b'.sugar = b.sugar := by
  unfold set_base at h
  split at h
  · cases h
  · cases h
    exact ⟨rfl, rfl⟩

/-- `set_size` never touches syrups or sugar. -/
lemma set_size_ok (b : CoffeeOrderBuilder) (s : String) (b' : CoffeeOrderBuilder)
    (h : set_size b s = .ok b') : b'.syrups = b.syrups ∧ b'.sugar = b.sugar := by
  unfold set_size at h
  split at h
  · cases h
  · cases h
    exact ⟨rfl, rfl⟩

/-- `set_milk` never touches syrups or sugar. -/
lemma set_milk_ok (b : CoffeeOrderBuilder) (s : String) (b' : CoffeeOrderBuilder)
    (h : set_milk b s = .ok b') : b'.syrups = b.syrups ∧ b'.sugar = b.sugar := by
  unfold set_milk at h
  split at h
  · cases h
  · cases h
    exact ⟨rfl, rfl⟩

/-- `set_iced` never touches syrups or sugar. -/
lemma set_iced_ok (b : CoffeeOrderBuilder) (v : PyVal) (b' : CoffeeOrderBuilder)
    (h : set_iced b v = .ok b') : b'.syrups = b.syrups ∧ b'.sugar = b.sugar := by
  unfold set_iced at h
  split at h
  · cases h
  · cases h
    exact ⟨rfl, rfl⟩

/-- A successful `set_sugar` stores a value inside the checked range and
leaves the syrups alone. -/
lemma set_sugar_ok (b : CoffeeOrderBuilder) (v : PyVal) (b' : CoffeeOrderBuilder)
    (h : set_sugar b v = .ok b') :
    b'.syrups = b.syrups ∧ 0 ≤ b'.sugar ∧ b'.sugar ≤ 5 := by
  unfold set_sugar at h
  split at h
  · cases h
  · split at h
    · cases h
    · rename_i hcond
      cases h
      simp only [MIN_SUGAR, MAX_SUGAR] at hcond
      refine ⟨rfl, ?_, ?_⟩
      · show (0 : ℤ) ≤ v.toInt
        omega
      · show v.toInt ≤ 5
        omega

/-- A successful `add_syrup` keeps the syrups distinct and within the
cap of 4 and leaves the sugar alone. -/
lemma add_syrup_ok (b : CoffeeOrderBuilder) (name : String) (b' : CoffeeOrderBuilder)
    (hnd : b.syrups.Nodup) (hlen : b.syrups.length ≤ 4)
    (h : add_syrup b name = .ok b') :
    b'.syrups.Nodup ∧ b'.syrups.length ≤ 4 ∧ b'.sugar = b.sugar := by
  unfold add_syrup at h
  split at h
  · rename_i hmem
    split at h
    · cases h
    · rename_i hcap
      cases h
      refine ⟨?_, ?_, rfl⟩
      · simp [List.nodup_append, hnd, hmem]
      · simp only [MAX_SYRUPS, ge_iff_le, not_le] at hcap
        simp only [List.length_append, List.length_singleton]
        omega
  · cases h
    exact ⟨hnd, hlen, rfl⟩

/-- Transfer of `builderInv` along unchanged syrups and sugar. -/
lemma builderInv_of_fields (b b' : CoffeeOrderBuilder)
    (h1 : b'.syrups = b.syrups) (h2 : b'.sugar = b.sugar)
    (h : builderInv b) : builderInv b' :=
  ⟨by rw [h1]; exact h.1, by rw [h1]; exact h.2.1,
   by rw [h2]; exact h.2.2.1, by rw [h2]; exact h.2.2.2⟩

/-- Every operation, successful or failing, preserves the run invariant. -/
lemma step_preserves_inv (op : Op) (w : World) (h : worldInv w) :
    worldInv (step op w) := by
  obtain ⟨hbuild, hords⟩ := h
  cases op with
  | setBase s =>
    cases hres : set_base w.builder s with
    | error e =>
      simp only [step, applySetter, hres]
      exact ⟨hbuild, hords⟩
    | ok b' =>
      obtain ⟨e1, e2⟩ := set_base_ok w.builder s b' hres
      simp only [step, applySetter, hres]
      exact ⟨builderInv_of_fields w.builder b' e1 e2 hbuild, hords⟩
  | setSize s =>
    cases hres : set_size w.builder s with
    | error e =>
      simp only [step, applySetter, hres]
      exact ⟨hbuild, hords⟩
    | ok b' =>
      obtain ⟨e1, e2⟩ := set_size_ok w.builder s b' hres
      simp only [step, applySetter, hres]
      exact ⟨builderInv_of_fields w.builder b' e1 e2 hbuild, hords⟩
  | setMilk s =>
    cases hres : set_milk w.builder s with
    | error e =>
      simp only [step, applySetter, hres]
      exact ⟨hbuild, hords⟩
    | ok b' =>
      obtain ⟨e1, e2⟩ := set_milk_ok w.builder s b' hres
      simp only [step, applySetter, hres]
      exact ⟨builderInv_of_fields w.builder b' e1 e2 hbuild, hords⟩
  | setIced v =>
    cases hres : set_iced w.builder v with
    | error e =>
      simp only [step, applySetter, hres]
      exact ⟨hbuild, hords⟩
    | ok b' =>
      obtain ⟨e1, e2⟩ := set_iced_ok w.builder v b' hres
      simp only [step, applySetter, hres]
      exact ⟨builderInv_of_fields w.builder b' e1 e2 hbuild, hords⟩
  | setSugar v =>
    cases hres : set_sugar w.builder v with
    | error e =>
      simp only [step, applySetter, hres]
      exact ⟨hbuild, hords⟩
    | ok b' =>
      obtain ⟨e1, e3, e4⟩ := set_sugar_ok w.builder v b' hres
      simp only [step, applySetter, hres]
      exact ⟨⟨by rw [e1]; exact hbuild.1, by rw [e1]; exact hbuild.2.1, e3, e4⟩, hords⟩
  | addSyrup s =>
    cases hres : add_syrup w.builder s with
    | error e =>
      simp only [step, applySetter, hres]
      exact ⟨hbuild, hords⟩
    | ok b' =>
      obtain ⟨e1, e2, e3⟩ := add_syrup_ok w.builder s b' hbuild.1 hbuild.2.1 hres
      simp only [step, applySetter, hres]
      exact ⟨⟨e1, e2, by rw [e3]; exact hbuild.2.2.1, by rw [e3]; exact hbuild.2.2.2⟩, hords⟩
  | clearExtras =>
    simp only [step]
    refine ⟨⟨?_, ?_, ?_, ?_⟩, hords⟩ <;> norm_num [clear_extras]
  | build =>
    cases hres : build w.builder with
    | error e =>
      simp only [step, hres]
      exact ⟨hbuild, hords⟩
    | ok o =>
      obtain ⟨e1, e2⟩ := build_ok_fields w.builder o hres
      simp only [step, hres]
      refine ⟨hbuild, ?_⟩
      intro o' ho'
      rcases List.mem_append.mp ho' with hmem | hmem
      · exact hords o' hmem
      · have ho : o' = o := by simpa using hmem
        subst ho
        exact ⟨by rw [e1]; exact hbuild.1, by rw [e1]; exact hbuild.2.1,
          by rw [e2]; exact hbuild.2.2.1, by rw [e2]; exact hbuild.2.2.2⟩

/-- The run invariant is inductive along any operation sequence. -/
lemma execOps_inv (ops : List Op) (w : World) (h : worldInv w) :
    worldInv (execOps ops w) := by
  induction ops generalizing w with
  | nil => exact h
  | cons op ops ih => exact ih (step op w) (step_preserves_inv op w h)

/-- C9: after any sequence of operations on a fresh builder — whether
the individual calls succeed or raise — the builder's syrups are
distinct and at most 4 and its sugar lies in 0..5, and every order the
run has built satisfies the same bounds. -/
theorem run_invariants (ops : List Op) :
    ((execOps ops initWorld).builder.syrups.Nodup
      ∧ (execOps ops initWorld).builder.syrups.length ≤ 4
      ∧ 0 ≤ (execOps ops initWorld).builder.sugar
      ∧ (execOps ops initWorld).builder.sugar ≤ 5)
    ∧ ∀ o ∈ (execOps ops initWorld).orders,
        o.syrups.Nodup ∧ o.syrups.length ≤ 4 ∧ 0 ≤ o.sugar ∧ o.sugar ≤ 5 := by
  have h0 : worldInv initWorld := by
    refine ⟨⟨?_, ?_, ?_, ?_⟩, ?_⟩ <;> simp [initWorld, initBuilder]
  have h := execOps_inv ops initWorld h0
  exact ⟨h.1, fun o ho => h.2 o ho⟩

/-- The order built by the run in the C9 witness. -/
def sampleOrder : CoffeeOrder :=
  CoffeeOrder.make "latte" "small" "none" [] 0 false
    (300 * 1.0 + 0.0 + (([] : List String).length : ℚ) * SYRUP_PRICE + 0.0) Option.none

/-- The sample run builds exactly `sampleOrder`. -/
lemma sampleOrder_mem :
    sampleOrder ∈ (execOps [Op.setBase "latte", Op.setSize "small", Op.build] initWorld).orders := by
  have h : (execOps [Op.setBase "latte", Op.setSize "small", Op.build] initWorld).orders
      = [sampleOrder] := rfl
  rw [h]
  exact List.mem_singleton_self _

/-- C9 witness: the invariant bounds at the concrete run that sets a
latte, small size and builds once. -/
theorem run_invariants_witness :
    sampleOrder.syrups.Nodup ∧ sampleOrder.syrups.length ≤ 4
      ∧ 0 ≤ sampleOrder.sugar ∧ sampleOrder.sugar ≤ 5 :=
  (run_invariants [Op.setBase "latte", Op.setSize "small", Op.build]).2
    sampleOrder sampleOrder_mem

end Coffee
